import Mathlib

/-!
Verification of the conversion-orchestration core of the
`rust-tui-video-convert` repository, shallowly embedded in Lean 4.

The embedding follows the Rust sources:
  * `src/converter.rs`  — format/settings model, `VideoConverter::convert`,
    `simulate_conversion`, `generate_output_path`
  * `src/ffmpeg.rs`     — external-tool backend (`FFmpegConverter`)
  * `src/native_converter.rs` — self-contained native backend
  * `src/app.rs`        — backend-selection step of `App::start_conversion`

External effects (the file system, the spawned process's stdout and exit
status, probe results) are passed in explicitly as oracle values, so every
definition is an executable function and every event trace is a `List`.
Machine integers are modelled as `Nat`/`Int` with explicit wrap where the
source can overflow; Rust `f64` expressions that only feed percent values
are modelled by exact natural-number division (noted at each use site).
-/

namespace VidConv

/-! ### A model of Rust `std::path` (Unix, no prefixes)

`Path::parent`, `Path::file_stem`, `Path::extension` and `PathBuf::push`
are the std functions `generate_output_path` relies on.  A path is parsed
into an `absolute` flag plus a list of components exactly as Rust does:
empty components are dropped, `"."` is dropped (Rust keeps a leading
`CurDir`; we model it as a component so `"."` still has no file name),
`".."` is a `parentDir` component, everything else is a normal component.
-/

inductive Comp where
  | normal (s : String)
  | parentDir
  | curDir
deriving DecidableEq, Repr

structure RPath where
  absolute : Bool
  comps : List Comp
deriving DecidableEq, Repr

def RPath.empty : RPath := ⟨false, []⟩

def parseComp (s : String) : Option Comp :=
  if s = "" then none
  else if s = "." then some Comp.curDir
  else if s = ".." then some Comp.parentDir
  else some (Comp.normal s)

/-- Split a character list on `'/'` (an executable stand-in for
`String.splitOn "/"`, recursing structurally so the kernel can
evaluate it on literals). -/
def splitSlash : List Char → List (List Char)
  | [] => [[]]
  | c :: cs =>
    match splitSlash cs with
    | [] => [[c]]
    | h :: t => if c = '/' then [] :: h :: t else (c :: h) :: t

/-- Parse a Unix path string into the component model.  A leading `"."`
is kept (as Rust keeps a leading `CurDir` component); every other `"."`
and every empty component is dropped. -/
def parsePath (s : String) : RPath :=
  let absolute := match s.data with
    | c :: _ => c = '/'
    | [] => false
  let parts := (splitSlash s.data).filterMap (fun l => parseComp ⟨l⟩)
  let comps :=
    match parts with
    | Comp.curDir :: rest => Comp.curDir :: rest.filter (· ≠ Comp.curDir)
    | rest => rest.filter (· ≠ Comp.curDir)
  ⟨absolute, comps⟩

/-- Rust `Path::parent`: the path without its final component; `none` for
a root or empty path. -/
def RPath.parent (p : RPath) : Option RPath :=
  match p.comps with
  | [] => none
  | _ => some ⟨p.absolute, p.comps.dropLast⟩

/-- Rust `Path::file_name`: the final component when it is a normal one. -/
def RPath.fileName (p : RPath) : Option String :=
  match p.comps.getLast? with
  | some (Comp.normal s) => some s
  | _ => none

/-- Split a character list at its last `'.'`: `none` when there is no dot,
otherwise `some (before, after)`. -/
def splitLastDot : List Char → Option (List Char × List Char)
  | [] => none
  | c :: cs =>
    match splitLastDot cs with
    | some (b, a) => some (c :: b, a)
    | none => if c = '.' then some ([], cs) else none

/-- Stem/extension split of a file name, per Rust: the dot that separates
stem from extension is the last dot *not in first position*; a name with
no such dot is all stem and has no extension. -/
def stemExt (n : String) : String × Option String :=
  match n.data with
  | [] => ("", none)
  | c :: cs =>
    match splitLastDot cs with
    | some (b, a) => (⟨c :: b⟩, some ⟨a⟩)
    | none => (n, none)

/-- Rust `Path::file_stem`. -/
def RPath.fileStem (p : RPath) : Option String :=
  p.fileName.map (fun n => (stemExt n).1)

/-- Rust `Path::extension`. -/
def RPath.extension (p : RPath) : Option String :=
  p.fileName.bind (fun n => (stemExt n).2)

/-- Rust `PathBuf::push` of a single relative normal component (the only
form `generate_output_path` uses: the pushed string is `stem ++ "." ++
ext`, which contains no separator and is neither `"."` nor `".."`). -/
def RPath.push (p : RPath) (s : String) : RPath :=
  ⟨p.absolute, p.comps ++ [Comp.normal s]⟩

/-! ### Format & settings model (`src/converter.rs`) -/

inductive Resolution where
  | Original | HD720p | HD1080p | UHD4K
deriving DecidableEq, Repr, Fintype

def Resolution.dimensions : Resolution → Option (Nat × Nat)
  | .Original => none
  | .HD720p => some (1280, 720)
  | .HD1080p => some (1920, 1080)
  | .UHD4K => some (3840, 2160)

inductive Bitrate where
  | Auto | Low | Medium | High
deriving DecidableEq, Repr, Fintype

/-- `Bitrate::value_kbps`, translated arm by arm from `converter.rs`. -/
def Bitrate.value_kbps : Bitrate → Resolution → Nat
  | .Auto, _ => 0
  | .Low, .HD720p => 1500
  | .Medium, .HD720p => 2500
  | .High, .HD720p => 4000
  | .Low, .HD1080p => 3000
  | .Medium, .HD1080p => 6000
  | .High, .HD1080p => 8000
  | .Low, .UHD4K => 8000
  | .Medium, .UHD4K => 12000
  | .High, .UHD4K => 18000
  | _, _ => 6000

/-- The explicit `(bitrate, resolution) => kbps` arms of the `value_kbps`
match, excluding the `Auto` catch-all and the default arm. -/
def bitrateTable : List (Bitrate × Resolution × Nat) :=
  [ (.Low, .HD720p, 1500), (.Medium, .HD720p, 2500), (.High, .HD720p, 4000),
    (.Low, .HD1080p, 3000), (.Medium, .HD1080p, 6000), (.High, .HD1080p, 8000),
    (.Low, .UHD4K, 8000), (.Medium, .UHD4K, 12000), (.High, .UHD4K, 18000) ]

inductive FrameRate where
  | Original | FPS24 | FPS30 | FPS60
deriving DecidableEq, Repr

def FrameRate.value : FrameRate → Option Nat
  | .Original => none
  | .FPS24 => some 24
  | .FPS30 => some 30
  | .FPS60 => some 60

structure VideoSettings where
  resolution : Resolution
  bitrate : Bitrate
  frame_rate : FrameRate
deriving DecidableEq, Repr

inductive VideoFormat where
  | MP4 | MKV | AVI | MOV | WEBM
deriving DecidableEq, Repr, Fintype

def VideoFormat.extension : VideoFormat → String
  | .MP4 => "mp4"
  | .MKV => "mkv"
  | .AVI => "avi"
  | .MOV => "mov"
  | .WEBM => "webm"

/-- Model of Rust `str::to_lowercase` as applied in `from_extension`.
Modelled character-wise with ASCII lowering, which agrees with Rust's
Unicode lowering on all ASCII input (the only input the round-trip
claims concern). -/
def lowerStr (s : String) : String := ⟨s.data.map Char.toLower⟩

/-- `VideoFormat::from_extension`. -/
def VideoFormat.from_extension (ext : String) : Option VideoFormat :=
  match lowerStr ext with
  | "mp4" => some .MP4
  | "mkv" => some .MKV
  | "avi" => some .AVI
  | "mov" => some .MOV
  | "webm" => some .WEBM
  | _ => none

/-! ### Progress events

`ConversionProgress` from `converter.rs`.  Note: `ffmpeg.rs` and
`native_converter.rs` build the struct without the `video_settings`
field; their events are modelled with `video_settings = none`. -/

structure ConversionProgress where
  percent : Nat
  current_step : String
  source_file : RPath
  target_format : VideoFormat
  output_file : RPath
  is_complete : Bool
  has_error : Bool
  error_message : Option String
  video_settings : Option VideoSettings
deriving DecidableEq, Repr

inductive ConversionMode where
  | Simulation | FFmpeg | NativeFFmpeg
deriving DecidableEq, Repr

/-- The source/format/output triple every event of one `convert()` call
carries. -/
structure Ctx where
  src : RPath
  fmt : VideoFormat
  out : RPath
deriving DecidableEq, Repr

/-- `send_progress`: build one event (sending on the channel preserves
emission order, so a run is modelled as the list of events sent). -/
def mkEv (ctx : Ctx) (percent : Nat) (step : String)
    (is_complete has_error : Bool) (error_message : Option String)
    (video_settings : Option VideoSettings) : ConversionProgress :=
  { percent := percent, current_step := step, source_file := ctx.src,
    target_format := ctx.fmt, output_file := ctx.out,
    is_complete := is_complete, has_error := has_error,
    error_message := error_message, video_settings := video_settings }

/-- `VideoConverter::generate_output_path`. -/
def generate_output_path (source_file : RPath) (target_format : VideoFormat) :
    RPath :=
  let parent := source_file.parent.getD RPath.empty
  let stem := source_file.fileStem.getD ""
  parent.push (stem ++ "." ++ target_format.extension)

/-- `VideoConverter::simulate_conversion`: the fixed event sequence the
simulated backend's thread sends (sleeps dropped; they do not affect the
channel contents or order). -/
def simulate_trace (ctx : Ctx) : List ConversionProgress :=
  mkEv ctx 0 "Analyzing video file..." false false none none ::
  mkEv ctx 10 "Extracting audio stream..." false false none none ::
  ((List.range' 20 61).map (fun i =>
    mkEv ctx i ("Converting video frame " ++ toString i ++ "/100...")
      false false none none)) ++
  [ mkEv ctx 90 "Muxing audio and video streams..." false false none none,
    mkEv ctx 100 "Finalizing output file..." false false none none,
    mkEv ctx 100 "Conversion complete!" true false none none ]

/-! ### Native backend (`src/native_converter.rs`)

The file system is an oracle: the probed size, the outcome of each
open/create/write/flush call, and the sequence of `read` results.  The
progress formula
`((bytes_read as f64 / file_size as f64) * 70.0) as u8 + 15`, capped at
85, is modelled with exact natural division: the saturating `as u8`
cast is `min _ 255` (an `f64` division by zero is `inf` and saturates,
hence the `size = 0` branch), and the subsequent `u8` addition is
modelled with wraparound (release-build semantics). -/

inductive ReadStep where
  /-- a successful `read` of `n` bytes followed by the chunk's
  `write_all`, which succeeds unless `w` is an error -/
  | chunk (n : Nat) (w : Except String Unit)
  /-- a failing `read` -/
  | readErr (e : String)
deriving Repr

structure NativeOracle where
  sizeRes : Except String Nat
  openRes : Except String Unit
  createRes : Except String Unit
  headerRes : Except String Unit
  audioRes : Except String Unit
  codecRes : Except String Unit
  reads : List ReadStep
  flushRes : Except String Unit
  footerRes : Except String Unit
deriving Repr

/-- The loop progress value (15–85 band). -/
def nativeProgress (size bytes : Nat) : Nat :=
  let q := if size = 0 then 255 else min (bytes * 70 / size) 255
  min ((q + 15) % 256) 85

/-- The per-chunk progress event (`frame_count % 10 == 0` throttling);
`bytes'` and `frames'` are the already-updated counters. -/
def frameEv (ctx : Ctx) (size bytes' frames' : Nat) : ConversionProgress :=
  mkEv ctx (nativeProgress size bytes')
    ("Processing frame " ++ toString frames' ++ "/" ++
      toString (size / 4096) ++ " (" ++
      toString (bytes' * 100 / size) ++ "%)")
    false false none none

/-- The (zero or one) progress events a processed chunk emits. -/
def chunkEvs (ctx : Ctx) (size bytes' frames' : Nat) :
    List ConversionProgress :=
  if frames' % 10 = 0 then [frameEv ctx size bytes' frames'] else []

/-- The chunk loop of `NativeConverter::convert`: events emitted plus
whether the thread returned early on an error. -/
def nativeLoop (ctx : Ctx) (size : Nat) :
    Nat → Nat → List ReadStep → List ConversionProgress × Bool
  | _, _, [] => ([], false)
  | _, _, ReadStep.readErr e :: _ =>
    ([mkEv ctx 0 ("Error reading data: " ++ e) true true
        (some ("Read error: " ++ e)) none], true)
  | bytes, frames, ReadStep.chunk n w :: rest =>
    if n = 0 then ([], false)
    else
      match w with
      | .error e =>
        (chunkEvs ctx size (bytes + n) (frames + 1) ++
          [mkEv ctx (nativeProgress size (bytes + n))
            ("Error writing video data: " ++ e) true true
            (some ("Write error: " ++ e)) none], true)
      | .ok _ =>
        (chunkEvs ctx size (bytes + n) (frames + 1) ++
          (nativeLoop ctx size (bytes + n) (frames + 1) rest).1,
         (nativeLoop ctx size (bytes + n) (frames + 1) rest).2)

/-- The event trace of the native backend's worker thread, plus whether
it returned early on an error. -/
def nativeRun (ctx : Ctx) (o : NativeOracle) : List ConversionProgress × Bool :=
  let start := mkEv ctx 0 "Starting native Rust conversion..." false false none none
  match o.sizeRes with
  | .error e =>
    ([start, mkEv ctx 0 ("Failed to get file size: " ++ e) true true
        (some ("File size error: " ++ e)) none], true)
  | .ok size =>
    let sizeEv := mkEv ctx 5
      ("Analyzing video file... Size: " ++ toString size ++ " bytes")
      false false none none
    match o.openRes with
    | .error e =>
      ([start, sizeEv, mkEv ctx 0 ("Failed to open input file: " ++ e) true true
          (some ("Input error: " ++ e)) none], true)
    | .ok _ =>
      match o.createRes with
      | .error e =>
        ([start, sizeEv, mkEv ctx 0 ("Failed to create output file: " ++ e)
            true true (some ("Output error: " ++ e)) none], true)
      | .ok _ =>
        let structEv := mkEv ctx 5 "Analyzing video structure and metadata..."
          false false none none
        match o.headerRes with
        | .error e =>
          ([start, sizeEv, structEv,
            mkEv ctx 0 ("Failed to write container header: " ++ e) true true
              (some ("Header error: " ++ e)) none], true)
        | .ok _ =>
          let audioEv := mkEv ctx 10 "Extracting and decoding audio streams..."
            false false none none
          match o.audioRes with
          | .error e =>
            ([start, sizeEv, structEv, audioEv,
              mkEv ctx 10 ("Failed to write audio metadata: " ++ e) true true
                (some ("Audio metadata error: " ++ e)) none], true)
          | .ok _ =>
            let framesEv := mkEv ctx 15 "Processing video frames..."
              false false none none
            match o.codecRes with
            | .error e =>
              ([start, sizeEv, structEv, audioEv, framesEv,
                mkEv ctx 15 ("Failed to write video codec info: " ++ e) true true
                  (some ("Video codec error: " ++ e)) none], true)
            | .ok _ =>
              let pre := [start, sizeEv, structEv, audioEv, framesEv]
              let lp := nativeLoop ctx size 0 0 o.reads
              if lp.2 then (pre ++ lp.1, true)
              else
                let muxEv := mkEv ctx 85 "Muxing audio and video streams..."
                  false false none none
                let finEv := mkEv ctx 95 "Finalizing container format..."
                  false false none none
                match o.flushRes with
                | .error e =>
                  (pre ++ lp.1 ++ [muxEv, finEv,
                    mkEv ctx 95 ("Failed to finalize output: " ++ e) true true
                      (some ("Finalize error: " ++ e)) none], true)
                | .ok _ =>
                  match o.footerRes with
                  | .error e =>
                    (pre ++ lp.1 ++ [muxEv, finEv,
                      mkEv ctx 95 ("Failed to write container footer: " ++ e)
                        true true (some ("Footer error: " ++ e)) none], true)
                  | .ok _ =>
                    (pre ++ lp.1 ++ [muxEv, finEv,
                      mkEv ctx 100 "Conversion complete!" true false none none],
                     false)

/-- Whether the worker thread reached `File::create` for the output path
(the only point at which the native backend creates a file). -/
def nativeCreatesOutput (o : NativeOracle) : Bool :=
  o.sizeRes.isOk && o.openRes.isOk && o.createRes.isOk

/-- `NativeConverter::convert`: fails synchronously with
`NativeConverterError::InvalidInput` (displayed "Invalid input file")
when the source does not exist, otherwise spawns the worker thread. -/
def nativeConvert (sourceExists : Bool) (o : NativeOracle) (ctx : Ctx) :
    Except String (List ConversionProgress × Bool) :=
  if sourceExists then .ok (nativeRun ctx o) else .error "Invalid input file"

/-! ### External-tool backend (`src/ffmpeg.rs`)

The spawned process is an oracle: spawn outcome, the lines read from its
stdout, and the `wait` result.  Numeric fields in progress lines are
parsed by `line[k..].parse::<f64>()`; the model parses unsigned decimal
literals (the form ffmpeg emits).  The percent
`((time_ms / duration_ms) * 100.0).min(100.0) as u8` is modelled by
exact natural division `min (time * 100 / duration) 100`. -/

inductive ExitOutcome where
  /-- process exited with code `c`; `status.success()` iff `c = 0` -/
  | exit (c : Int)
  /-- process terminated by a signal (`status.code() = None`) -/
  | signal
deriving DecidableEq, Repr

structure FFmpegOracle where
  /-- result of the `ffprobe` duration query (seconds; only echoed into a
  message, `unwrap_or 0`) -/
  probeRes : Except String Nat
  spawnRes : Except String Unit
  lines : List String
  waitRes : Except String ExitOutcome
deriving Repr

/-- `pre` is a prefix of `s` (an executable model of `str::starts_with`,
structural over the character list). -/
def strStartsWith (s pre : String) : Bool := pre.data.isPrefixOf s.data

/-- Drop the first `k` characters (model of byte slicing `s[k..]`; for the
ASCII prefixes used here bytes and characters coincide). -/
def strDrop (s : String) (k : Nat) : String := ⟨s.data.drop k⟩

def parseDigits (l : List Char) : Nat :=
  l.foldl (fun a c => a * 10 + (c.toNat - 48)) 0

/-- Model of `str::parse::<f64>()` as applied to the progress payloads:
an optional sign followed by a nonempty digit string, yielding a signed
integral value.  Rust's `f64` grammar also accepts fractional, exponent
and inf/nan literals; those parse to `none` here, so the theorems that
quantify over streams carry an explicit hypothesis (`timesParse`) that
every progress payload lies in this signed-integral subset — the model
never silently accepts a stream whose real parse it would misread. -/
def parseNum (s : String) : Option Int :=
  match s.data with
  | '-' :: rest =>
    if rest.length ≠ 0 && rest.all Char.isDigit then
      some (-(parseDigits rest : Int))
    else none
  | '+' :: rest =>
    if rest.length ≠ 0 && rest.all Char.isDigit then
      some (parseDigits rest : Int)
    else none
  | l =>
    if l.length ≠ 0 && l.all Char.isDigit then
      some (parseDigits l : Int)
    else none

/-- The percent `((time_ms / duration_ms) * 100.0).min(100.0) as u8` for
an integral time and positive integral duration: Rust's saturating
float-to-int cast sends every negative value to 0, and truncation on the
non-negative range is exact integer division. -/
def fpct (time d : Int) : Nat :=
  if time < 0 then 0 else min (time.toNat * 100 / d.toNat) 100

/-- The stdout line loop of `FFmpegConverter::convert`: returns the
progress events emitted and whether the `progress=end` marker was seen
(the loop `break`s there).  `d` and `t` model the `f64` locals
`duration_ms` and `time_ms` (integral-valued here, see `parseNum`); a
progress event is emitted only when `duration_ms > 0.0`. -/
def ffmpegLines (ctx : Ctx) :
    Int → Int → List String → List ConversionProgress × Bool
  | _, _, [] => ([], false)
  | d, t, l :: ls =>
    if strStartsWith l "out_time_ms=" then
      match parseNum (strDrop l 12) with
      | some time =>
        if 0 < d then
          (mkEv ctx (fpct time d)
            ("Converting video... " ++ toString (fpct time d) ++
              "%") false false none none ::
            (ffmpegLines ctx d time ls).1, (ffmpegLines ctx d time ls).2)
        else ffmpegLines ctx d time ls
      | none => ffmpegLines ctx d t ls
    else if strStartsWith l "duration=" then
      match parseNum (strDrop l 9) with
      | some v => ffmpegLines ctx (v * 1000) t ls
      | none => ffmpegLines ctx d t ls
    else if l = "progress=end" then
      ([mkEv ctx 100 "Conversion complete!" true false none none], true)
    else ffmpegLines ctx d t ls

/-- The events sent after the stream ends, from `child.wait()`. -/
def ffmpegWaitEvents (ctx : Ctx) (w : Except String ExitOutcome) :
    List ConversionProgress :=
  match w with
  | .ok (.exit c) =>
    if c = 0 then []
    else
      [mkEv ctx 0 ("FFmpeg failed with exit code: " ++ toString c) true true
        (some ("FFmpeg process failed with status: " ++ toString c)) none]
  | .ok .signal =>
    [mkEv ctx 0 "FFmpeg process terminated by signal" true true
      (some "FFmpeg process terminated by signal") none]
  | .error e =>
    [mkEv ctx 0 ("Error waiting for FFmpeg: " ++ e) true true
      (some ("Error waiting for FFmpeg: " ++ e)) none]

/-- The event trace of the external-tool backend's worker thread. -/
def ffmpegRun (ctx : Ctx) (o : FFmpegOracle) : List ConversionProgress :=
  mkEv ctx 0 "Starting FFmpeg conversion..." false false none none ::
  mkEv ctx 0 ("Analyzing video file... Duration: " ++
      toString (o.probeRes.toOption.getD 0) ++ " seconds")
    false false none none ::
  match o.spawnRes with
  | .error e =>
    [mkEv ctx 0 ("Failed to start FFmpeg: " ++ e) true true
      (some ("Failed to start FFmpeg: " ++ e)) none]
  | .ok _ =>
    let r := ffmpegLines ctx 0 0 o.lines
    r.1 ++ ffmpegWaitEvents ctx o.waitRes

/-- `FFmpegConverter::convert`: fails synchronously with
`FFmpegError::InvalidInput` (displayed "Invalid input file") when the
source does not exist, otherwise spawns the worker thread. -/
def ffmpegConvert (sourceExists : Bool) (o : FFmpegOracle) (ctx : Ctx) :
    Except String (List ConversionProgress) :=
  if sourceExists then .ok (ffmpegRun ctx o) else .error "Invalid input file"

/-! ### `VideoConverter::convert` (`src/converter.rs`) -/

/-- The external world one `convert()` call can observe. -/
structure ConvEnv where
  sourceExists : Bool
  nativeO : NativeOracle
  /-- result of `FFmpegConverter::check_ffmpeg_available()` as invoked by
  `converter.rs` in `FFmpeg` mode -/
  ffmpegAvail : Except String Bool
  ffmpegO : FFmpegOracle
deriving Repr

def default_settings : VideoSettings :=
  { resolution := .Original, bitrate := .Auto, frame_rate := .Original }

/-- The full event trace of `VideoConverter::convert`. -/
def convert (mode : ConversionMode) (env : ConvEnv)
    (source_file : RPath) (target_format : VideoFormat) :
    List ConversionProgress :=
  let output_file := generate_output_path source_file target_format
  let ctx : Ctx := ⟨source_file, target_format, output_file⟩
  mkEv ctx 0 "Initializing conversion..." false false none
    (some default_settings) ::
  match mode with
  | .Simulation => simulate_trace ctx
  | .NativeFFmpeg =>
    match nativeConvert env.sourceExists env.nativeO ctx with
    | .ok r => r.1
    | .error e =>
      mkEv ctx 0 ("Native FFmpeg error: " ++ e ++ ", falling back to simulation")
        false true (some ("Native FFmpeg error: " ++ e)) none ::
      simulate_trace ctx
  | .FFmpeg =>
    match env.ffmpegAvail with
    | .ok true =>
      match ffmpegConvert env.sourceExists env.ffmpegO ctx with
      | .ok evs => evs
      | .error e =>
        mkEv ctx 0 ("FFmpeg error: " ++ e ++ ", falling back to simulation")
          false true (some ("FFmpeg error: " ++ e)) none ::
        simulate_trace ctx
    | .ok false =>
      mkEv ctx 0 "FFmpeg not found, using simulation mode" false false none
        none ::
      simulate_trace ctx
    | .error _ =>
      mkEv ctx 0 "Error checking FFmpeg availability, using simulation mode"
        false false none (some default_settings) ::
      simulate_trace ctx

/-- Whether a `convert()` call can have created the output file: the
simulated backend never touches the file system, the native backend
creates the output only at its `File::create`, and the external tool only
once it is spawned. -/
def convertCreatesOutput (mode : ConversionMode) (env : ConvEnv) : Bool :=
  match mode with
  | .Simulation => false
  | .NativeFFmpeg => env.sourceExists && nativeCreatesOutput env.nativeO
  | .FFmpeg =>
    (match env.ffmpegAvail with | .ok true => true | _ => false) &&
      env.sourceExists && env.ffmpegO.spawnRes.isOk

/-! ### Backend selection (`App::start_conversion`, `src/app.rs`) -/

/-- `NativeConverter::check_available()` is the constant `Ok(true)`. -/
def check_available : Except String Bool := .ok true

/-- The backend-selection step of `App::start_conversion`, as a function
of the two probe results, instrumented with whether the ExternalTool
probe was consulted (`true` exactly when control reaches the
`check_ffmpeg_available` call, i.e. the `!native_available` branch). -/
def start_conversion_select (nativeRes ffmpegRes : Except String Bool) :
    ConversionMode × Bool :=
  let native_available := match nativeRes with
    | .ok available => available
    | .error _ => false
  let probed := !native_available
  let ffmpeg_available :=
    if !native_available then
      match ffmpegRes with
      | .ok available => available
      | .error _ => false
    else false
  let mode :=
    if native_available then ConversionMode.NativeFFmpeg
    else if ffmpeg_available then ConversionMode.FFmpeg
    else ConversionMode.Simulation
  (mode, probed)

end VidConv

namespace VidConv

/-! ### Helper lemmas about the path model -/

lemma splitLastDot_of_not_mem {l : List Char} (h : '.' ∉ l) :
    splitLastDot l = none := by
  induction l with
  | nil => rfl
  | cons c cs ih =>
    have hc : c ≠ '.' := fun hc => h (hc ▸ List.mem_cons_self c cs)
    have hcs : '.' ∉ cs := fun hm => h (List.mem_cons_of_mem c hm)
    simp [splitLastDot, ih hcs, hc]

lemma splitLastDot_append {l a : List Char} (h : '.' ∉ a) :
    splitLastDot (l ++ '.' :: a) = some (l, a) := by
  induction l with
  | nil => simp [splitLastDot, splitLastDot_of_not_mem h]
  | cons c cs ih => simp [splitLastDot, ih]

/-- Splitting `stem ++ "." ++ ext` recovers the stem and extension when
the stem is nonempty and the extension has no dot. -/
lemma stemExt_append (s e : String) (hs : s ≠ "") (he : '.' ∉ e.data) :
    stemExt (s ++ "." ++ e) = (s, some e) := by
  obtain ⟨c, cs, hdata⟩ : ∃ c cs, s.data = c :: cs := by
    cases hd : s.data with
    | nil => exact absurd (by cases s; simp_all) hs
    | cons c cs => exact ⟨c, cs, rfl⟩
  have hfull : (s ++ "." ++ e).data = c :: (cs ++ '.' :: e.data) := by
    simp [String.data_append, hdata]
  have hs' : s = ⟨c :: cs⟩ := by cases s; exact congrArg String.mk hdata
  simp only [stemExt, hfull, splitLastDot_append he]
  rw [hs']

lemma stemExt_fst_ne_empty (n : String) (hn : n ≠ "") : (stemExt n).1 ≠ "" := by
  obtain ⟨c, cs, hdata⟩ : ∃ c cs, n.data = c :: cs := by
    cases hd : n.data with
    | nil => exact absurd (by cases n; simp_all) hn
    | cons c cs => exact ⟨c, cs, rfl⟩
  simp only [stemExt, hdata]
  cases hsplit : splitLastDot cs with
  | none => simpa using hn
  | some p =>
    obtain ⟨b, a⟩ := p
    intro hcontra
    have h2 := congrArg String.data hcontra
    simp at h2

lemma ext_no_dot (f : VideoFormat) : '.' ∉ f.extension.data := by
  cases f <;> decide

end VidConv

namespace VidConv

lemma comps_eq_of_fileName {p : RPath} {n : String}
    (h : p.fileName = some n) :
    p.comps = p.comps.dropLast ++ [Comp.normal n] := by
  unfold RPath.fileName at h
  cases hl : p.comps.getLast? with
  | none => rw [hl] at h; simp at h
  | some c =>
    rw [hl] at h
    cases c with
    | normal s =>
      simp at h
      subst h
      exact (List.dropLast_append_getLast? _ hl).symm
    | parentDir => simp at h
    | curDir => simp at h

/-- Claim C4 (amended): for every source path that has a (nonempty) file
name, `generate_output_path` keeps the parent directory and the file stem
and sets the extension to exactly the target format's extension. -/
theorem claim_C4 (src : RPath) (f : VideoFormat) (n : String)
    (hn : src.fileName = some n) (hne : n ≠ "") :
    (generate_output_path src f).parent = src.parent ∧
    (generate_output_path src f).fileStem = src.fileStem ∧
    (generate_output_path src f).extension = some f.extension := by
  have hcomps := comps_eq_of_fileName hn
  have hnil : src.comps ≠ [] := by
    rw [hcomps]; simp
  have hstem : src.fileStem = some (stemExt n).1 := by
    simp [RPath.fileStem, hn]
  have hout : generate_output_path src f =
      ⟨src.absolute, src.comps.dropLast ++
        [Comp.normal ((stemExt n).1 ++ "." ++ f.extension)]⟩ := by
    unfold generate_output_path RPath.push
    have hpar : src.parent = some ⟨src.absolute, src.comps.dropLast⟩ := by
      unfold RPath.parent
      cases hc : src.comps with
      | nil => exact absurd hc hnil
      | cons a l => rfl
    rw [hpar, hstem]
    rfl
  have hsplit := stemExt_append (stemExt n).1 f.extension
    (stemExt_fst_ne_empty n hne) (ext_no_dot f)
  have hfn : (generate_output_path src f).fileName =
      some ((stemExt n).1 ++ "." ++ f.extension) := by
    rw [hout]
    unfold RPath.fileName
    simp [List.getLast?_concat]
  refine ⟨?_, ?_, ?_⟩
  · rw [hout]
    unfold RPath.parent
    simp only [List.dropLast_concat]
    cases hc : src.comps with
    | nil => exact absurd hc hnil
    | cons a l => simp [hc]
  · rw [hstem]
    unfold RPath.fileStem
    rw [hfn]
    simp [hsplit]
  · unfold RPath.extension
    rw [hfn]
    simp [hsplit]

/-- Claim C4, witness: a concrete application. -/
theorem claim_C4_witness :
    (generate_output_path (parsePath "a/video.mp4") VideoFormat.MKV).parent =
        (parsePath "a/video.mp4").parent ∧
    (generate_output_path (parsePath "a/video.mp4") VideoFormat.MKV).fileStem =
        (parsePath "a/video.mp4").fileStem ∧
    (generate_output_path (parsePath "a/video.mp4") VideoFormat.MKV).extension =
        some (VideoFormat.MKV).extension :=
  claim_C4 (parsePath "a/video.mp4") VideoFormat.MKV "video.mp4"
    (by decide) (by decide)

/-- Claim C4, counterexample to the original universally-quantified claim:
for the source path `"/"` (which has no file stem) the derived output path
is `".mkv"`, whose Rust `extension()` is `None` (a file name starting with
its only dot has no extension), whose stem is `Some ".mkv"` while the
source has none, and whose parent is `Some ""` while the source's is
`None`. -/
theorem claim_C4_counterexample :
    ¬ ((generate_output_path (parsePath "/") VideoFormat.MKV).parent =
          (parsePath "/").parent ∧
       (generate_output_path (parsePath "/") VideoFormat.MKV).fileStem =
          (parsePath "/").fileStem ∧
       (generate_output_path (parsePath "/") VideoFormat.MKV).extension =
          some (VideoFormat.MKV).extension) := by
  decide

/-- Claim C10: the output-path derivation is total — it always yields a
path with a well-defined file name; a source with no parent is treated as
if its parent were the empty path, and a source with no file stem as if
its stem were the empty string. -/
theorem claim_C10 (src : RPath) (f : VideoFormat) :
    (∃ name, (generate_output_path src f).fileName = some name) ∧
    (src.parent = none →
      generate_output_path src f = RPath.push RPath.empty ("" ++ "." ++ f.extension)) ∧
    (src.fileStem = none →
      (generate_output_path src f).fileName = some ("" ++ "." ++ f.extension)) := by
  refine ⟨?_, ?_, ?_⟩
  · exact ⟨(src.fileStem.getD "") ++ "." ++ f.extension, by
      unfold generate_output_path RPath.push RPath.fileName
      simp [List.getLast?_concat]⟩
  · intro hp
    have hc : src.comps = [] := by
      unfold RPath.parent at hp
      cases hc : src.comps with
      | nil => rfl
      | cons a l => rw [hc] at hp; simp at hp
    have hstem : src.fileStem = none := by
      unfold RPath.fileStem RPath.fileName
      simp [hc]
    unfold generate_output_path
    rw [hp, hstem]
    rfl
  · intro hs
    have hstem : src.fileStem.getD "" = "" := by rw [hs]; rfl
    unfold generate_output_path RPath.push RPath.fileName
    simp [List.getLast?_concat, hstem]

/-- Claim C10, witness: the empty source path (no parent, no stem). -/
theorem claim_C10_witness :
    generate_output_path (parsePath "") VideoFormat.MP4 =
      RPath.push RPath.empty ("" ++ "." ++ (VideoFormat.MP4).extension) :=
  (claim_C10 (parsePath "") VideoFormat.MP4).2.1 (by decide)

/-- Claim C5: the bitrate lookup gives 6000 for (Medium, 1080p), 0 for
Auto with any resolution, and the default 6000 for every non-Auto
combination outside the fixed table. -/
theorem claim_C5 :
    Bitrate.value_kbps .Medium .HD1080p = 6000 ∧
    (∀ r : Resolution, Bitrate.value_kbps .Auto r = 0) ∧
    (∀ (b : Bitrate) (r : Resolution), b ≠ .Auto →
      (∀ e ∈ bitrateTable, ¬(e.1 = b ∧ e.2.1 = r)) →
      Bitrate.value_kbps b r = 6000) := by
  refine ⟨rfl, by decide, ?_⟩
  decide

/-- Claim C5, witness: `Low` paired with `Original` has no table entry and
falls through to the default 6000. -/
theorem claim_C5_witness : Bitrate.value_kbps .Low .Original = 6000 :=
  claim_C5.2.2 .Low .Original (by decide) (by decide)

end VidConv

namespace VidConv

/-- `s` is a case variant of `t`: same length and character-wise either
equal or the (ASCII) uppercase of `t`'s character. -/
def caseVariant (s t : String) : Bool :=
  (s.data.length == t.data.length) &&
    (s.data.zip t.data).all (fun p => p.1 == p.2 || p.1 == p.2.toUpper)

lemma map_toLower_of_variant :
    ∀ (xs ys : List Char), xs.length = ys.length →
    (∀ p ∈ xs.zip ys, p.1 = p.2 ∨ p.1 = p.2.toUpper) →
    (∀ c ∈ ys, c.toLower = c ∧ c.toUpper.toLower = c) →
    xs.map Char.toLower = ys := by
  intro xs
  induction xs with
  | nil =>
    intro ys hlen _ _
    cases ys with
    | nil => rfl
    | cons y ys => simp at hlen
  | cons x xs ih =>
    intro ys hlen hv hy
    cases ys with
    | nil => simp at hlen
    | cons y ys =>
      have hhead : x = y ∨ x = y.toUpper := by simpa using hv (x, y) (by simp)
      have hy0 := hy y (by simp)
      have hx : x.toLower = y := by
        rcases hhead with h | h
        · rw [h]; exact hy0.1
        · rw [h]; exact hy0.2
      simp only [List.map_cons, hx]
      congr 1
      exact ih ys (by simpa using hlen)
        (fun p hp => hv p (by simp [hp]))
        (fun c hc => hy c (by simp [hc]))

lemma lowerStr_eq_of_variant {s t : String} (h : caseVariant s t = true)
    (ht : ∀ c ∈ t.data, c.toLower = c ∧ c.toUpper.toLower = c) :
    lowerStr s = t := by
  simp only [caseVariant, Bool.and_eq_true, beq_iff_eq, List.all_eq_true,
    Bool.or_eq_true] at h
  have hdata : s.data.map Char.toLower = t.data :=
    map_toLower_of_variant s.data t.data h.1
      (fun p hp => by
        rcases h.2 p hp with h1 | h1
        · exact Or.inl (by exact_mod_cast h1)
        · exact Or.inr (by exact_mod_cast h1))
      ht
  unfold lowerStr
  cases t
  exact congrArg String.mk hdata

/-- Claim C6: for each of the five supported formats and every case
variant of its canonical extension, `from_extension` maps the variant to
that format, so extension→format→extension yields the lowercase canonical
extension (which is already lowercase). -/
theorem claim_C6 (f : VideoFormat) (s : String)
    (h : caseVariant s f.extension = true) :
    VideoFormat.from_extension s = some f ∧
    (VideoFormat.from_extension s).map VideoFormat.extension =
      some f.extension ∧
    lowerStr f.extension = f.extension := by
  have hlow : lowerStr s = f.extension :=
    lowerStr_eq_of_variant h (by cases f <;> decide)
  have hfrom : VideoFormat.from_extension s = some f := by
    unfold VideoFormat.from_extension
    rw [hlow]
    cases f <;> rfl
  exact ⟨hfrom, by rw [hfrom]; rfl, by cases f <;> decide⟩

/-- Claim C6, witness: the all-uppercase variant of `mp4`. -/
theorem claim_C6_witness :
    VideoFormat.from_extension "MP4" = some VideoFormat.MP4 ∧
    (VideoFormat.from_extension "MP4").map VideoFormat.extension =
      some (VideoFormat.MP4).extension ∧
    lowerStr (VideoFormat.MP4).extension = (VideoFormat.MP4).extension :=
  claim_C6 VideoFormat.MP4 "MP4" (by decide)

/-- Claim C7: in the backend-selection step of `App::start_conversion`,
whenever the PreferredNative availability probe returns `Ok(true)`, the
ExternalTool availability probe is not consulted. -/
theorem claim_C7 (nativeRes ffmpegRes : Except String Bool)
    (h : nativeRes = .ok true) :
    (start_conversion_select nativeRes ffmpegRes).2 = false := by
  subst h
  rfl

/-- Claim C7, witness. -/
theorem claim_C7_witness :
    (start_conversion_select (.ok true) (.ok false)).2 = false :=
  claim_C7 (.ok true) (.ok false) rfl

end VidConv

namespace VidConv

/-! ### Trace projections and generic trace predicates -/

/-- Project an event to its (percent, step, isComplete, hasError)
quadruple; source/format/output are dropped so projected traces of the
fixed backends are closed values. -/
def stepsOf (t : List ConversionProgress) : List (Nat × String × Bool × Bool) :=
  t.map (fun e => (e.percent, e.current_step, e.is_complete, e.has_error))

def percentsOf (t : List ConversionProgress) : List Nat :=
  t.map (fun e => e.percent)

/-- The projected simulated-backend trace, as a closed value. -/
lemma stepsOf_simulate (ctx : Ctx) :
    stepsOf (simulate_trace ctx) =
      (0, "Analyzing video file...", false, false) ::
      (10, "Extracting audio stream...", false, false) ::
      ((List.range' 20 61).map (fun i =>
        (i, "Converting video frame " ++ toString i ++ "/100...",
          false, false))) ++
      [ (90, "Muxing audio and video streams...", false, false),
        (100, "Finalizing output file...", false, false),
        (100, "Conversion complete!", true, false) ] := by
  unfold stepsOf simulate_trace
  simp [List.map_map, mkEv]

lemma percentsOf_simulate (ctx : Ctx) :
    percentsOf (simulate_trace ctx) =
      0 :: 10 :: List.range' 20 61 ++ [90, 100, 100] := by
  unfold percentsOf simulate_trace
  simp [List.map_map, mkEv]
  show List.map (fun i => i) (List.range' 20 61) = List.range' 20 61
  exact List.map_id' _

end VidConv

namespace VidConv

lemma stepsOf_convert_sim (env : ConvEnv) (src : RPath) (fmt : VideoFormat) :
    stepsOf (convert .Simulation env src fmt) =
      (0, "Initializing conversion...", false, false) ::
      stepsOf (simulate_trace
        ⟨src, fmt, generate_output_path src fmt⟩) := by
  rfl

lemma percentsOf_convert_sim (env : ConvEnv) (src : RPath) (fmt : VideoFormat) :
    percentsOf (convert .Simulation env src fmt) =
      0 :: percentsOf (simulate_trace
        ⟨src, fmt, generate_output_path src fmt⟩) := by
  rfl

/-- Claim C9: a simulated-backend `convert()` run emits exactly one event
with percent 0 and step "Initializing conversion...", its percents in the
20–80 band form exactly the strictly increasing sequence 20,21,…,80, and
the final event is the completion event with percent 100. -/
theorem claim_C9 (env : ConvEnv) (src : RPath) (fmt : VideoFormat) :
    ((stepsOf (convert .Simulation env src fmt)).countP
        (fun q => q.1 == 0 && q.2.1 == "Initializing conversion...") = 1) ∧
    ((percentsOf (convert .Simulation env src fmt)).filter
        (fun p => 20 ≤ p && p ≤ 80) = List.range' 20 61) ∧
    ((stepsOf (convert .Simulation env src fmt)).getLast? =
        some (100, "Conversion complete!", true, false)) := by
  rw [stepsOf_convert_sim, percentsOf_convert_sim, stepsOf_simulate,
    percentsOf_simulate]
  refine ⟨?_, ?_, ?_⟩ <;> decide

end VidConv

namespace VidConv

lemma simulate_getLast (ctx : Ctx) :
    (simulate_trace ctx).getLast? =
      some (mkEv ctx 100 "Conversion complete!" true false none none) := by
  unfold simulate_trace
  rw [List.getLast?_append_of_ne_nil _ (by simp)]
  rfl

lemma simulate_ne_nil (ctx : Ctx) : simulate_trace ctx ≠ [] := by
  unfold simulate_trace
  simp

lemma simulate_no_error (ctx : Ctx) :
    ∀ e ∈ simulate_trace ctx, e.has_error = false := by
  intro e he
  have hm : (e.percent, e.current_step, e.is_complete, e.has_error)
      ∈ stepsOf (simulate_trace ctx) := List.mem_map_of_mem _ he
  have hall : (stepsOf (simulate_trace ctx)).all (fun q => !q.2.2.2) = true := by
    rw [stepsOf_simulate]
    decide
  have h2 := List.all_eq_true.mp hall _ hm
  simpa using h2

/-- Claim C8: when both the PreferredNative and the ExternalTool probes
return false, the selected mode is Simulation; and a simulated attempt
always ends with the completion event (it emits no error event at all). -/
theorem claim_C8 :
    (∀ nativeRes ffmpegRes : Except String Bool,
      nativeRes = .ok false → ffmpegRes = .ok false →
      (start_conversion_select nativeRes ffmpegRes).1 = .Simulation) ∧
    (∀ ctx : Ctx,
      (simulate_trace ctx).getLast? =
        some (mkEv ctx 100 "Conversion complete!" true false none none) ∧
      (mkEv ctx 100 "Conversion complete!" true false none
        none).is_complete = true ∧
      ∀ e ∈ simulate_trace ctx, e.has_error = false) := by
  constructor
  · intro nativeRes ffmpegRes hn hf
    subst hn
    subst hf
    rfl
  · intro ctx
    exact ⟨simulate_getLast ctx, rfl, simulate_no_error ctx⟩

/-- Claim C8, witness: both probes report false; the simulated trace for
a concrete context ends complete. -/
theorem claim_C8_witness :
    (start_conversion_select (.ok false) (.ok false)).1 =
      ConversionMode.Simulation ∧
    (simulate_trace ⟨parsePath "a/v.mp4", .MKV,
        parsePath "a/v.mkv"⟩).getLast? =
      some (mkEv ⟨parsePath "a/v.mp4", .MKV, parsePath "a/v.mkv"⟩ 100
        "Conversion complete!" true false none none) :=
  ⟨claim_C8.1 (.ok false) (.ok false) rfl rfl,
   (claim_C8.2 ⟨parsePath "a/v.mp4", .MKV, parsePath "a/v.mkv"⟩).1⟩

end VidConv

namespace VidConv

/-- The `convert()`-wide context: source, format, derived output path. -/
def convCtx (src : RPath) (fmt : VideoFormat) : Ctx :=
  ⟨src, fmt, generate_output_path src fmt⟩

/-- The first event every `convert()` call sends. -/
def initEv (ctx : Ctx) : ConversionProgress :=
  mkEv ctx 0 "Initializing conversion..." false false none
    (some default_settings)

/-- The fallback event `convert()` sends when the native backend's setup
fails with `InvalidInput`. -/
def nativeFallbackEv (ctx : Ctx) : ConversionProgress :=
  mkEv ctx 0 "Native FFmpeg error: Invalid input file, falling back to simulation"
    false true (some "Native FFmpeg error: Invalid input file") none

/-- The fallback event `convert()` sends when the external-tool backend's
setup fails with `InvalidInput`. -/
def ffmpegFallbackEv (ctx : Ctx) : ConversionProgress :=
  mkEv ctx 0 "FFmpeg error: Invalid input file, falling back to simulation"
    false true (some "FFmpeg error: Invalid input file") none

lemma getLast_append_sim (ctx : Ctx) (l : List ConversionProgress) :
    (l ++ simulate_trace ctx).getLast? =
      some (mkEv ctx 100 "Conversion complete!" true false none none) := by
  rw [List.getLast?_append_of_ne_nil _ (simulate_ne_nil ctx),
    simulate_getLast]

/-- A concrete environment whose source file is missing. -/
def envMissingSource : ConvEnv :=
  { sourceExists := false,
    nativeO := ⟨.ok 4096, .ok (), .ok (), .ok (), .ok (), .ok (), [],
      .ok (), .ok ()⟩,
    ffmpegAvail := .ok true,
    ffmpegO := ⟨.ok 10, .ok (), [], .ok (.exit 0)⟩ }

/-- Claim C1, counterexample to the original claim: with the source file
missing, the first event `convert()` places on the channel is the generic
"Initializing conversion..." event with `hasError = false`, not an error
event. -/
theorem claim_C1_counterexample :
    ¬ ((convert .NativeFFmpeg envMissingSource (parsePath "a/video.mp4")
          .MKV).head?.map (fun e => e.has_error) = some true) := by
  decide

/-- Claim C1 (amended): if the source path no longer exists when
`convert()` is called, the first event on the channel is the generic
"Initializing conversion..." event with `hasError = false`; no output
file is created; in `NativeFFmpeg` mode (and in `FFmpeg` mode with the
tool available) the selected backend's `convert` fails before starting
its work unit, an event with `hasError = true` naming the invalid input
is emitted, and the run falls back to the simulated backend; the trace
always ends with the simulated completion event (`isComplete = true`). -/
theorem claim_C1 (mode : ConversionMode) (env : ConvEnv) (src : RPath)
    (fmt : VideoFormat) (h : env.sourceExists = false) :
    (convert mode env src fmt).head? = some (initEv (convCtx src fmt)) ∧
    (initEv (convCtx src fmt)).has_error = false ∧
    convertCreatesOutput mode env = false ∧
    (mode = .NativeFFmpeg →
      convert mode env src fmt =
        initEv (convCtx src fmt) :: nativeFallbackEv (convCtx src fmt) ::
          simulate_trace (convCtx src fmt) ∧
      (nativeFallbackEv (convCtx src fmt)).has_error = true) ∧
    (mode = .FFmpeg → env.ffmpegAvail = .ok true →
      convert mode env src fmt =
        initEv (convCtx src fmt) :: ffmpegFallbackEv (convCtx src fmt) ::
          simulate_trace (convCtx src fmt) ∧
      (ffmpegFallbackEv (convCtx src fmt)).has_error = true) ∧
    (convert mode env src fmt).getLast?.map (fun e => e.is_complete) =
      some true := by
  refine ⟨?_, rfl, ?_, ?_, ?_, ?_⟩
  · cases mode <;> rfl
  · cases mode with
    | Simulation => rfl
    | NativeFFmpeg => unfold convertCreatesOutput; rw [h]; simp
    | FFmpeg => unfold convertCreatesOutput; rw [h]; simp
  · intro hm
    subst hm
    constructor
    · unfold convert nativeConvert
      rw [h]
      rfl
    · rfl
  · intro hm hav
    subst hm
    constructor
    · unfold convert ffmpegConvert
      rw [h, hav]
      rfl
    · rfl
  · cases mode with
    | Simulation =>
      rw [show convert .Simulation env src fmt =
        [initEv (convCtx src fmt)] ++ simulate_trace (convCtx src fmt)
        from rfl, getLast_append_sim]
      rfl
    | NativeFFmpeg =>
      rw [show convert .NativeFFmpeg env src fmt =
        [initEv (convCtx src fmt), nativeFallbackEv (convCtx src fmt)] ++
          simulate_trace (convCtx src fmt)
        from by unfold convert nativeConvert; rw [h]; rfl, getLast_append_sim]
      rfl
    | FFmpeg =>
      cases hav : env.ffmpegAvail with
      | ok b =>
        cases b with
        | true =>
          rw [show convert .FFmpeg env src fmt =
            [initEv (convCtx src fmt), ffmpegFallbackEv (convCtx src fmt)] ++
              simulate_trace (convCtx src fmt)
            from by unfold convert ffmpegConvert; rw [h, hav]; rfl,
            getLast_append_sim]
          rfl
        | false =>
          rw [show convert .FFmpeg env src fmt =
            [initEv (convCtx src fmt),
              mkEv (convCtx src fmt) 0 "FFmpeg not found, using simulation mode"
                false false none none] ++ simulate_trace (convCtx src fmt)
            from by unfold convert; rw [hav]; rfl, getLast_append_sim]
          rfl
      | error e =>
        rw [show convert .FFmpeg env src fmt =
          [initEv (convCtx src fmt),
            mkEv (convCtx src fmt) 0
              "Error checking FFmpeg availability, using simulation mode"
              false false none (some default_settings)] ++
            simulate_trace (convCtx src fmt)
          from by unfold convert; rw [hav]; rfl, getLast_append_sim]
        rfl

/-- Claim C1, witness: a concrete missing-source environment. -/
theorem claim_C1_witness :
    (convert .NativeFFmpeg envMissingSource (parsePath "a/video.mp4")
        .MKV).head? =
      some (initEv (convCtx (parsePath "a/video.mp4") .MKV)) ∧
    convertCreatesOutput .NativeFFmpeg envMissingSource = false :=
  ⟨(claim_C1 .NativeFFmpeg envMissingSource (parsePath "a/video.mp4") .MKV
      rfl).1,
   (claim_C1 .NativeFFmpeg envMissingSource (parsePath "a/video.mp4") .MKV
      rfl).2.2.1⟩

end VidConv

namespace VidConv

lemma ffmpegRun_getLast_wait (ctx : Ctx) (o : FFmpegOracle)
    (hspawn : o.spawnRes = .ok ())
    (hw : ffmpegWaitEvents ctx o.waitRes ≠ []) :
    (ffmpegRun ctx o).getLast? = (ffmpegWaitEvents ctx o.waitRes).getLast? := by
  unfold ffmpegRun
  rw [hspawn]
  show (_ :: _ :: ((ffmpegLines ctx 0 0 o.lines).1 ++
    ffmpegWaitEvents ctx o.waitRes)).getLast? = _
  rw [List.getLast?_cons_cons, ← List.cons_append,
    List.getLast?_append_of_ne_nil _ hw]

/-- Claim C2, counterexample to the original claim: a run whose process
exits with code 1 reports a terminal event with `isComplete = true`, not
`isComplete = false` as claimed. -/
theorem claim_C2_counterexample :
    ¬ ((ffmpegRun ⟨parsePath "a/video.mp4", .MKV, parsePath "a/video.mkv"⟩
          ⟨.ok 10, .ok (), [], .ok (.exit 1)⟩).getLast?.map
        (fun e => e.is_complete) = some false) := by
  decide

/-- Claim C2 (amended): for every run of the external-tool backend whose
process exits non-zero or dies by a signal, the event reported for that
outcome (the last event of the run) has `hasError = true` and
`isComplete = true` (the code marks the failure event complete), and the
step message distinguishes an exit code from a signal. -/
theorem claim_C2 (o : FFmpegOracle) (ctx : Ctx)
    (hspawn : o.spawnRes = .ok ()) :
    (∀ c : Int, c ≠ 0 → o.waitRes = .ok (.exit c) →
      (ffmpegRun ctx o).getLast? =
        some (mkEv ctx 0 ("FFmpeg failed with exit code: " ++ toString c)
          true true
          (some ("FFmpeg process failed with status: " ++ toString c)) none) ∧
      (mkEv ctx 0 ("FFmpeg failed with exit code: " ++ toString c) true true
          (some ("FFmpeg process failed with status: " ++ toString c))
          none).has_error = true ∧
      (mkEv ctx 0 ("FFmpeg failed with exit code: " ++ toString c) true true
          (some ("FFmpeg process failed with status: " ++ toString c))
          none).is_complete = true) ∧
    (o.waitRes = .ok .signal →
      (ffmpegRun ctx o).getLast? =
        some (mkEv ctx 0 "FFmpeg process terminated by signal" true true
          (some "FFmpeg process terminated by signal") none)) ∧
    (∀ c : Int,
      ("FFmpeg failed with exit code: " ++ toString c) ≠
        "FFmpeg process terminated by signal") := by
  refine ⟨?_, ?_, ?_⟩
  · intro c hc hw
    refine ⟨?_, rfl, rfl⟩
    rw [ffmpegRun_getLast_wait ctx o hspawn
      (by rw [hw]; unfold ffmpegWaitEvents; simp [hc]), hw]
    unfold ffmpegWaitEvents
    simp [hc]
  · intro hw
    rw [ffmpegRun_getLast_wait ctx o hspawn
      (by rw [hw]; unfold ffmpegWaitEvents; simp), hw]
    rfl
  · intro c heq
    have h8 := congrArg (fun s => s.data.take 8) heq
    simp only [String.data_append] at h8
    rw [List.take_append_eq_append_take] at h8
    have hlen : ("FFmpeg failed with exit code: " : String).data.length = 30 := by
      decide
    rw [hlen] at h8
    have h0 : (8 : Nat) - 30 = 0 := rfl
    rw [h0, List.take_zero, List.append_nil] at h8
    exact absurd h8 (by decide)

/-- Claim C2, witness: a concrete failing run with exit code 2. -/
theorem claim_C2_witness :
    (ffmpegRun ⟨parsePath "b/clip.avi", .MP4, parsePath "b/clip.mp4"⟩
        ⟨.ok 3, .ok (), [], .ok (.exit 2)⟩).getLast? =
      some (mkEv ⟨parsePath "b/clip.avi", .MP4, parsePath "b/clip.mp4"⟩ 0
        ("FFmpeg failed with exit code: " ++ toString (2 : Int)) true true
        (some ("FFmpeg process failed with status: " ++ toString (2 : Int)))
        none) :=
  ((claim_C2 ⟨.ok 3, .ok (), [], .ok (.exit 2)⟩
      ⟨parsePath "b/clip.avi", .MP4, parsePath "b/clip.mp4"⟩ rfl).1 2
    (by decide) rfl).1

end VidConv

namespace VidConv

/-! ### Claim C3 machinery: native backend -/

end VidConv
